import Mathlib

/-!
Shallow embedding of `src/Expense_tracker.py`, a pandas/streamlit expense
tracker, together with proofs of the specification's claims about it.

Modelling decisions (each mirrors a pandas behaviour used by the source):

* The persisted CSV file `expenses.csv` is modelled at row granularity as
  `FileState := Option (List RawRow)`; `none` means the file does not exist,
  `some rows` means it exists with the standard header and those data rows.
* A raw cell of the `Amount` column is modelled by `RawAmount`: either a
  parseable numeric cell carrying its value (Python floats are modelled by `ℚ`;
  the program only compares and transports amounts, never does arithmetic, so
  order and equality are all that matter), or a cell on which
  `pd.to_numeric(..., errors="coerce")` yields `NaN` (empty or unparseable).
  `RawDate` is the same for the `Date` column under
  `pd.to_datetime(..., errors="coerce")`, with calendar dates modelled by `ℤ`
  (their ordinal; only order is used).
* A loaded DataFrame cell that is `NaN`/`NaT` is `none`. An empty description
  cell is read back by `pd.read_csv` as `NaN`, hence `Option String`.
* `DataFrame.drop(label)` raises `KeyError` when the label is absent
  (`errors='raise'` is the pandas default); raising is modelled by
  `Except.error ()`. After `load_expenses` the index is a fresh
  `RangeIndex 0..n-1`, so a label is present exactly when it is `< n`.
* `Series.str.contains(pat, case=False, na=False)` uses `regex=True` by
  default, i.e. `re.search` with `re.IGNORECASE`. It is modelled by
  `pyContains`, faithful on patterns whose characters are ordinary regex
  characters or the wildcard `'.'` (no other metacharacters); `IGNORECASE`
  is modelled by ASCII lowercasing of both sides.
-/

/-- Raw `Amount` cell of the CSV file: `num q` is a cell that
`pd.to_numeric(errors="coerce")` parses to the number `q`; `bad` is a cell
(empty or unparseable) that it coerces to `NaN`. -/
inductive RawAmount where
  | num (q : ℚ)
  | bad
deriving DecidableEq

/-- Raw `Date` cell of the CSV file: `date d` is a cell that
`pd.to_datetime(errors="coerce")` parses to the calendar date of ordinal `d`;
`bad` is a cell it coerces to `NaT`. -/
inductive RawDate where
  | date (d : ℤ)
  | bad
deriving DecidableEq

/-- One data row of the persisted CSV file, in header order
`Description,Amount,Date`. An empty description cell is `none`
(`pd.read_csv` reads it as `NaN`). -/
structure RawRow where
  description : Option String
  amount : RawAmount
  date : RawDate
deriving DecidableEq

/-- One row of the loaded DataFrame after the coercions in `load_expenses`:
`none` is a `NaN`/`NaT` cell. -/
structure Expense where
  description : Option String
  amount : Option ℚ
  date : Option ℤ
deriving DecidableEq

/-- The persisted file: `none` when `expenses.csv` does not exist,
`some rows` when it exists with the standard header and `rows`. -/
abbrev FileState := Option (List RawRow)

/-- `pd.to_numeric(cell, errors="coerce")`: unparseable cells become `NaN`. -/
def to_numeric : RawAmount → Option ℚ
  | .num q => some q
  | .bad => none

/-- `pd.to_datetime(cell, errors="coerce")`: unparseable cells become `NaT`. -/
def to_datetime : RawDate → Option ℤ
  | .date d => some d
  | .bad => none

/-- The per-row effect of the two coercion lines of `load_expenses`. -/
def coerceRow (r : RawRow) : Expense :=
  ⟨r.description, to_numeric r.amount, to_datetime r.date⟩

/-- A loaded DataFrame: the column names and the coerced rows. -/
structure Table where
  header : List String
  rows : List Expense
deriving DecidableEq

/-- The fixed schema `Description,Amount,Date`. -/
def stdColumns : List String := ["Description", "Amount", "Date"]

/-- `load_expenses()`: if the file exists, read it and coerce the `Amount`
and `Date` columns; otherwise return an empty DataFrame with the standard
columns. -/
def load_expenses : FileState → Table
  | none => ⟨stdColumns, []⟩
  | some rs => ⟨stdColumns, rs.map coerceRow⟩

/-- `pd.read_csv`'s default `na_values` (with `keep_default_na=True`, the
default on line 15): a description cell whose text is one of these strings
is read back as `NaN`, i.e. missing. -/
def csvDefaultNA : List String :=
  ["", "#N/A", "#N/A N/A", "#NA", "-1.#IND", "-1.#INF", "-1.#QNAN",
   "-NaN", "-nan", "1.#IND", "1.#INF", "1.#QNAN", "<NA>", "N/A", "NA",
   "NULL", "NaN", "None", "n/a", "nan", "null"]

/-- The CSV row written for `(description, amount, date)` by
`new_data.to_csv`: the amount and date are written in a form their load
coercions parse back exactly, but the description cell is re-read through
`pd.read_csv`'s default `na_values` — an empty string, or text such as
`"NaN"`, `"nan"`, `"NA"`, `"null"`, `"None"`, comes back as a missing
cell. -/
def serializeRow (description : String) (amount : ℚ) (date : ℤ) : RawRow :=
  ⟨if description ∈ csvDefaultNA then none else some description,
   RawAmount.num amount, RawDate.date date⟩

/-- `save_expense(description, amount, date)`: append one CSV row; create the
file with a header when it does not exist (`mode='w'` vs `mode='a'`,
`header=False`). -/
def save_expense (description : String) (amount : ℚ) (date : ℤ) :
    FileState → FileState
  | none => some [serializeRow description amount date]
  | some rs => some (rs ++ [serializeRow description amount date])

/-- The CSV row `expenses.to_csv` writes for a loaded row: a `NaN`/`NaT` cell
is written as an empty cell, which the load coercions read back as
missing. -/
def writeBackRow (e : Expense) : RawRow :=
  ⟨e.description,
   match e.amount with | some q => RawAmount.num q | none => RawAmount.bad,
   match e.date with | some d => RawDate.date d | none => RawDate.bad⟩

/-- `DataFrame.drop(i)` on a freshly loaded table (index = `RangeIndex`):
drops the row labelled `i` when present, raises `KeyError` (modelled as
`Except.error ()`) when the label is out of range. -/
def df_drop (t : Table) (i : ℕ) : Except Unit Table :=
  if i < t.rows.length then .ok ⟨t.header, t.rows.eraseIdx i⟩ else .error ()

/-- `remove_expense(index)`: reload the table, drop the row labelled `index`,
and rewrite the whole file from the result. A `KeyError` from `drop`
propagates (`Except.error`) and nothing is written. -/
def remove_expense (index : ℕ) (f : FileState) : Except Unit FileState :=
  match df_drop (load_expenses f) index with
  | .ok dropped => .ok (some (dropped.rows.map writeBackRow))
  | .error e => .error e

/-- ASCII model of `re.IGNORECASE`: uppercase ASCII letters are lowered,
every other character is unchanged. -/
def lowerChar (c : Char) : Char :=
  if 65 ≤ c.toNat ∧ c.toNat ≤ 90 then Char.ofNat (c.toNat + 32) else c

/-- Lowercasing of a string, as a character list. -/
def lowerStr (s : String) : List Char := s.data.map lowerChar

/-- A compiled pattern atom of the regex fragment the source uses:
`none` is the wildcard `'.'`, `some c` a literal character. -/
abbrev PatAtom := Option Char

/-- Compile a pattern made of ordinary characters and `'.'` into atoms. -/
def parsePat (p : List Char) : List PatAtom :=
  p.map fun c => if c = '.' then none else some c

/-- Does the atom list match a prefix of the character list? -/
def matchHere : List PatAtom → List Char → Bool
  | [], _ => true
  | _ :: _, [] => false
  | a :: as, c :: cs =>
    (match a with | none => true | some l => l == c) && matchHere as cs

/-- `re.search`: does the atom list match starting at some position? -/
def reSearch (pat : List PatAtom) : List Char → Bool
  | [] => matchHere pat []
  | c :: cs => matchHere pat (c :: cs) || reSearch pat cs

/-- `re.search(pat, s, re.IGNORECASE)` on the supported regex fragment
(ordinary characters and the `'.'` wildcard). -/
def pyContains (pat s : String) : Bool :=
  reSearch (parsePat (lowerStr pat)) (lowerStr s)

/-- `Series.str.contains(pat, case=False, na=False)` applied to one
description cell: a missing description never matches (`na=False`). -/
def strContainsNaFalse (d : Option String) (pat : String) : Bool :=
  match d with
  | none => false
  | some s => pyContains pat s

/-- The description stage of `filter_expenses`: Python's
`if description_filter:` skips the stage exactly when the string is empty. -/
def descriptionStage (description_filter : String) (rows : List Expense) :
    List Expense :=
  if description_filter = "" then rows
  else rows.filter fun r => strContainsNaFalse r.description description_filter

/-- The comparison `row['Amount'] <= amount_filter`: `NaN <= t` is false. -/
def amountLe (a : Option ℚ) (t : ℚ) : Bool :=
  match a with
  | some q => decide (q ≤ t)
  | none => false

/-- The amount stage of `filter_expenses`: applied only when
`amount_filter > 0`. -/
def amountStage (amount_filter : ℚ) (rows : List Expense) : List Expense :=
  if 0 < amount_filter then rows.filter fun r => amountLe r.amount amount_filter
  else rows

/-- The comparison `start <= row['Date'] <= end`: `NaT` compares false. -/
def dateInRange (d : Option ℤ) (lo hi : ℤ) : Bool :=
  match d with
  | some x => decide (lo ≤ x) && decide (x ≤ hi)
  | none => false

/-- The date stage of `filter_expenses`: Python's
`if date_range and len(date_range) == 2:` applies it exactly when the list
has two endpoints. The endpoints come from a date picker, so they are
always valid dates (`ℤ`). -/
def dateStage (date_range : List ℤ) (rows : List Expense) : List Expense :=
  match date_range with
  | [lo, hi] => rows.filter fun r => dateInRange r.date lo hi
  | _ => rows

/-- `filter_expenses(expenses, description_filter, amount_filter, date_range)`:
the three stages in source order, on a copy of the input. -/
def filter_expenses (rows : List Expense) (description_filter : String)
    (amount_filter : ℚ) (date_range : List ℤ) : List Expense :=
  dateStage date_range (amountStage amount_filter
    (descriptionStage description_filter rows))

/-- The add branch of `main`: `if description and amount > 0:` saves and
shows a success message (`true`), otherwise shows `st.error` (`false`) and
writes nothing. A Python string is truthy exactly when it is non-empty. -/
def add_expense_action (description : String) (amount : ℚ) (date : ℤ)
    (f : FileState) : FileState × Bool :=
  if description ≠ "" ∧ 0 < amount then (save_expense description amount date f, true)
  else (f, false)

/-- Code points of the characters Python `re` treats as metacharacters
outside a character class: `. ^ $ * + ? { } [ ] \ | ( )`. -/
def regexMetaCodes : List ℕ := [46, 94, 36, 42, 43, 63, 123, 125, 91, 93, 92, 124, 40, 41]

/-- A character that stands for itself in a Python regex pattern. -/
def ordinaryChar (c : Char) : Bool := !(regexMetaCodes.contains c.toNat)

/-- Substring containment of character lists, following the spec's words
(case handled by the caller): the pattern occurs contiguously somewhere. -/
def isSubstrOf (pat : List Char) : List Char → Bool
  | [] => pat.isEmpty
  | c :: cs => pat.isPrefixOf (c :: cs) || isSubstrOf pat cs

/-- Spec-side description match, following the spec's words: case-insensitive
substring containment of the filter in the description; a missing
description never matches. -/
def specDescMatch (d : Option String) (pat : String) : Bool :=
  match d with
  | none => false
  | some s => isSubstrOf (lowerStr pat) (lowerStr s)

/-- The description stage's row predicate, as a total predicate (`true` when
the stage is skipped). -/
def descPred (description_filter : String) (r : Expense) : Bool :=
  if description_filter = "" then true
  else strContainsNaFalse r.description description_filter

/-- The amount stage's row predicate, as a total predicate. -/
def amountPred (amount_filter : ℚ) (r : Expense) : Bool :=
  if 0 < amount_filter then amountLe r.amount amount_filter else true

/-- The date stage's row predicate, as a total predicate. -/
def datePred (date_range : List ℤ) (r : Expense) : Bool :=
  match date_range with
  | [lo, hi] => dateInRange r.date lo hi
  | _ => true

/-! ### Sample data used by witnesses -/

/-- Sample loaded row. -/
def rowCoffee : Expense := ⟨some "Coffee", some 4, some 1⟩

/-- Sample loaded row. -/
def rowRent : Expense := ⟨some "Rent", some 1200, some 5⟩

/-- Sample loaded row with amount 0. -/
def rowFree : Expense := ⟨some "Gift", some 0, some 2⟩

/-- Sample loaded row with missing amount and description. -/
def rowBlank : Expense := ⟨none, none, some 3⟩

/-- Sample persisted file with two rows. -/
def fileTwo : FileState :=
  some [⟨some "Coffee", RawAmount.num 4, RawDate.date 1⟩,
        ⟨some "Rent", RawAmount.num 1200, RawDate.date 5⟩]

/-- Sample persisted file with three rows, one with unparseable cells. -/
def fileThree : FileState :=
  some [⟨some "Coffee", RawAmount.num 4, RawDate.date 1⟩,
        ⟨some "Rent", RawAmount.num 1200, RawDate.date 5⟩,
        ⟨none, RawAmount.bad, RawDate.bad⟩]

/-! ### Helper lemmas -/

/-- Each loaded cell survives the rewrite performed by `remove_expense`:
missing cells are written as empty cells, which load back as missing. -/
theorem coerceRow_writeBackRow (e : Expense) : coerceRow (writeBackRow e) = e := by
  obtain ⟨d, a, t⟩ := e
  cases a <;> cases t <;> rfl

/-- `amountLe` holds exactly of present amounts that are at most `t`. -/
theorem amountLe_eq_true_iff (a : Option ℚ) (t : ℚ) :
    amountLe a t = true ↔ ∃ q, a = some q ∧ q ≤ t := by
  cases a <;> simp [amountLe]

/-- C1 as stated is false: `pd.read_csv`'s default `na_values` turn the
saved non-empty description `"nan"` into a missing cell, so save-then-load
does not return the saved record at this concrete valid input. -/
theorem save_then_load_na_counterexample :
    (load_expenses (save_expense "nan" 5 1 none)).rows
      ≠ (load_expenses (none : FileState)).rows ++ [⟨some "nan", some 5, some 1⟩] := by
  decide

/-- C1 (amended): for every valid record whose description is non-empty and
not one of `pd.read_csv`'s default NA strings, `save_expense` followed by
`load_expenses` yields a table whose last row is the saved record and whose
earlier rows are the previously loaded rows, unchanged and in order. -/
theorem save_then_load_appends (d : String) (a : ℚ) (t : ℤ) (f : FileState)
    (hd : d ≠ "") (hna : d ∉ csvDefaultNA) (ha : 0 < a) :
    (load_expenses (save_expense d a t f)).rows
      = (load_expenses f).rows ++ [⟨some d, some a, some t⟩] := by
  cases f <;>
    simp [load_expenses, save_expense, serializeRow, coerceRow, to_numeric,
      to_datetime, hd, hna]

/-- Witness for the amended C1 at a concrete record and file. -/
theorem save_then_load_appends_witness :
    ("Latte" ≠ "" ∧ "Latte" ∉ csvDefaultNA ∧ (0:ℚ) < 5) ∧
    (load_expenses (save_expense "Latte" 5 9 fileTwo)).rows
      = (load_expenses fileTwo).rows ++ [⟨some "Latte", some 5, some 9⟩] :=
  ⟨⟨by decide, by decide, by norm_num⟩,
   save_then_load_appends "Latte" 5 9 fileTwo (by decide) (by decide) (by norm_num)⟩

/-- C3: `load_expenses` never fails: on a missing file it returns the empty
table with exactly the columns `Description, Amount, Date`; on a present
file it returns every row, one loaded row per raw row, and a cell that does
not coerce becomes the missing sentinel instead of an error. -/
theorem load_expenses_never_fails :
    load_expenses none = ⟨["Description", "Amount", "Date"], []⟩ ∧
    (∀ rs : List RawRow, (load_expenses (some rs)).rows = rs.map coerceRow) ∧
    (∀ rs : List RawRow, (load_expenses (some rs)).rows.length = rs.length) ∧
    (∀ d t, (coerceRow ⟨d, RawAmount.bad, t⟩).amount = none) ∧
    (∀ d a, (coerceRow ⟨d, a, RawDate.bad⟩).date = none) :=
  ⟨rfl, fun _ => rfl, fun rs => by simp [load_expenses],
   fun _ _ => rfl, fun _ _ => rfl⟩

/-- C4: the add action writes exactly when the description is non-empty and
the amount is positive; otherwise it reports a validation failure (`false`,
the `st.error` branch) and leaves the file unchanged. -/
theorem add_action_validates (d : String) (a : ℚ) (t : ℤ) (f : FileState) :
    (d ≠ "" ∧ 0 < a → add_expense_action d a t f = (save_expense d a t f, true)) ∧
    ((d = "" ∨ a ≤ 0) → add_expense_action d a t f = (f, false)) := by
  constructor
  · intro h
    simp [add_expense_action, h]
  · intro h
    have hn : ¬(d ≠ "" ∧ 0 < a) := by
      rcases h with h | h
      · exact fun hc => hc.1 h
      · exact fun hc => absurd hc.2 (not_lt.mpr h)
    simp [add_expense_action, hn]

/-- Witness for C4: the spec's example `add("Taxi", 0, d)` is rejected with
the file unchanged, and a valid record is written. -/
theorem add_action_validates_witness :
    (("Taxi" : String) = "" ∨ (0:ℚ) ≤ 0) ∧
    add_expense_action "Taxi" 0 737 fileTwo = (fileTwo, false) ∧
    ("Coffee" ≠ "" ∧ (0:ℚ) < 5) ∧
    add_expense_action "Coffee" 5 737 none = (save_expense "Coffee" 5 737 none, true) :=
  ⟨Or.inr le_rfl,
   (add_action_validates "Taxi" 0 737 fileTwo).2 (Or.inr le_rfl),
   ⟨by decide, by norm_num⟩,
   (add_action_validates "Coffee" 5 737 none).1 ⟨by decide, by norm_num⟩⟩

/-- C5: a threshold `t ≤ 0` disables the amount filter (every row kept,
including amount-0 and missing-amount rows); a threshold `t > 0` keeps
exactly the rows whose amount is present and at most `t`. -/
theorem amount_filter_spec (rows : List Expense) (t : ℚ) :
    (t ≤ 0 → amountStage t rows = rows) ∧
    (0 < t → ∀ r : Expense,
      r ∈ amountStage t rows ↔ r ∈ rows ∧ ∃ q, r.amount = some q ∧ q ≤ t) := by
  constructor
  · intro h
    simp [amountStage, not_lt.mpr h]
  · intro ht r
    simp [amountStage, ht, List.mem_filter, amountLe_eq_true_iff]

/-- Witness for C5: threshold 0 keeps the amount-0 and missing-amount rows;
threshold 100 keeps `rowCoffee` and excludes `rowRent`. -/
theorem amount_filter_spec_witness :
    ((0:ℚ) ≤ 0 ∧ amountStage 0 [rowCoffee, rowFree, rowBlank, rowRent]
        = [rowCoffee, rowFree, rowBlank, rowRent]) ∧
    ((0:ℚ) < 100 ∧
      (rowRent ∈ amountStage 100 [rowCoffee, rowRent] ↔
        rowRent ∈ [rowCoffee, rowRent] ∧ ∃ q, rowRent.amount = some q ∧ q ≤ 100)) :=
  ⟨⟨le_rfl, (amount_filter_spec _ 0).1 le_rfl⟩,
   ⟨by norm_num, (amount_filter_spec _ 100).2 (by norm_num) rowRent⟩⟩

/-- The code point of a lowered character. -/
theorem toNat_lowerChar (c : Char) :
    (lowerChar c).toNat
      = if 65 ≤ c.toNat ∧ c.toNat ≤ 90 then c.toNat + 32 else c.toNat := by
  unfold lowerChar
  split
  · rename_i h
    have hv : Nat.isValidChar (c.toNat + 32) := Or.inl (by omega)
    simp only [Char.ofNat, dif_pos hv]
    rfl
  · rfl

/-- Lowering an ordinary pattern character never produces the wildcard. -/
theorem lowerChar_ne_dot {c : Char} (h : ordinaryChar c = true) :
    lowerChar c ≠ '.' := by
  intro he
  have h46 : (lowerChar c).toNat = 46 := by rw [he]; rfl
  rw [toNat_lowerChar] at h46
  have hc : c.toNat ≠ 46 := by
    simp [ordinaryChar, regexMetaCodes, List.contains] at h
    omega
  split at h46 <;> omega

/-- On an all-literal pattern, anchored matching is prefix testing. -/
theorem matchHere_literals (ps : List Char) :
    ∀ cs : List Char, matchHere (ps.map some) cs = ps.isPrefixOf cs := by
  induction ps with
  | nil => intro cs; cases cs <;> rfl
  | cons p ps ih =>
    intro cs
    cases cs with
    | nil => rfl
    | cons c cs => simp [matchHere, List.isPrefixOf_cons₂, ih]

/-- On an all-literal pattern, regex search is substring containment. -/
theorem reSearch_literals (ps cs : List Char) :
    reSearch (ps.map some) cs = isSubstrOf ps cs := by
  induction cs with
  | nil =>
    cases ps <;> rfl
  | cons c cs ih => simp [reSearch, isSubstrOf, matchHere_literals, ih]

/-- A pattern without wildcards compiles to literal atoms. -/
theorem parsePat_eq_map_some {l : List Char} (h : ∀ c ∈ l, c ≠ '.') :
    parsePat l = l.map some := by
  unfold parsePat
  exact List.map_congr_left fun c hc => if_neg (h c hc)

/-- On patterns made of ordinary characters, the source's regex search
coincides with case-insensitive substring containment. -/
theorem pyContains_ordinary (pat s : String)
    (h : ∀ c ∈ pat.data, ordinaryChar c = true) :
    pyContains pat s = isSubstrOf (lowerStr pat) (lowerStr s) := by
  have hdot : ∀ c ∈ lowerStr pat, c ≠ '.' := by
    intro c hc
    rcases List.mem_map.mp hc with ⟨c₀, hc₀, rfl⟩
    exact lowerChar_ne_dot (h c₀ hc₀)
  unfold pyContains
  rw [parsePat_eq_map_some hdot, reSearch_literals]

/-- The description stage is filtering by its total predicate. -/
theorem descriptionStage_eq_filter (df : String) (rows : List Expense) :
    descriptionStage df rows = rows.filter (descPred df) := by
  unfold descriptionStage descPred
  by_cases h : df = "" <;> simp [h]

/-- The amount stage is filtering by its total predicate. -/
theorem amountStage_eq_filter (t : ℚ) (rows : List Expense) :
    amountStage t rows = rows.filter (amountPred t) := by
  unfold amountStage amountPred
  by_cases h : 0 < t <;> simp [h]

/-- The date stage is filtering by its total predicate. -/
theorem dateStage_eq_filter (dr : List ℤ) (rows : List Expense) :
    dateStage dr rows = rows.filter (datePred dr) := by
  unfold dateStage datePred
  match dr with
  | [] => simp
  | [_] => simp
  | [lo, hi] => rfl
  | _ :: _ :: _ :: _ => simp

/-- `filter_expenses` is one pass of row-wise filtering by the conjunction
of the three stage predicates. -/
theorem filter_expenses_eq_filter (rows : List Expense) (df : String)
    (af : ℚ) (dr : List ℤ) :
    filter_expenses rows df af dr
      = rows.filter fun r => descPred df r && amountPred af r && datePred dr r := by
  simp [filter_expenses, descriptionStage_eq_filter, amountStage_eq_filter,
    dateStage_eq_filter, List.filter_filter, Bool.and_assoc, Bool.and_comm,
    Bool.and_left_comm]

/-- Rewriting a loaded table to the file and loading again is the identity:
the cells round-trip through `to_csv` followed by the load coercions. -/
theorem load_writeBack (l : List Expense) :
    (load_expenses (some (l.map writeBackRow))).rows = l := by
  simp only [load_expenses, List.map_map]
  have h : ∀ e ∈ l, (coerceRow ∘ writeBackRow) e = id e :=
    fun e _ => coerceRow_writeBackRow e
  rw [List.map_congr_left h, List.map_id]

/-- C2: for a valid positional index of the freshly loaded table,
`remove_expense i` succeeds and a subsequent `load_expenses` yields the
previous table with the occurrence at index `i` removed; in particular it
has exactly one fewer row. -/
theorem remove_then_load (f : FileState) (i : ℕ)
    (h : i < (load_expenses f).rows.length) :
    ∃ f', remove_expense i f = Except.ok f' ∧
      (load_expenses f').rows.length = (load_expenses f).rows.length - 1 ∧
      (load_expenses f').rows = (load_expenses f).rows.eraseIdx i := by
  refine ⟨some (((load_expenses f).rows.eraseIdx i).map writeBackRow), ?_, ?_, ?_⟩
  · simp [remove_expense, df_drop, h]
  · rw [load_writeBack, List.length_eraseIdx_of_lt h]
  · rw [load_writeBack]

/-- Witness for C2 at a concrete file and index. -/
theorem remove_then_load_witness :
    0 < (load_expenses fileTwo).rows.length ∧
    ∃ f', remove_expense 0 fileTwo = Except.ok f' ∧
      (load_expenses f').rows.length = (load_expenses fileTwo).rows.length - 1 ∧
      (load_expenses f').rows = (load_expenses fileTwo).rows.eraseIdx 0 :=
  ⟨by decide, remove_then_load fileTwo 0 (by decide)⟩

/-- C10: removal at a valid index is frame-preserving on the other rows:
rows before `i` keep their positions and contents, rows after `i` shift
down by exactly one, unchanged. -/
theorem remove_frame (f : FileState) (i : ℕ)
    (h : i < (load_expenses f).rows.length) :
    ∃ f', remove_expense i f = Except.ok f' ∧
      (∀ j, j < i → (load_expenses f').rows[j]? = (load_expenses f).rows[j]?) ∧
      (∀ j, i < j → j < (load_expenses f).rows.length →
        (load_expenses f').rows[j - 1]? = (load_expenses f).rows[j]?) := by
  refine ⟨some (((load_expenses f).rows.eraseIdx i).map writeBackRow), ?_, ?_, ?_⟩
  · simp [remove_expense, df_drop, h]
  · intro j hj
    rw [load_writeBack]
    exact List.getElem?_eraseIdx_of_lt _ _ _ hj
  · intro j hij hjn
    rw [load_writeBack]
    have h1 : i ≤ j - 1 := by omega
    have h2 : j - 1 + 1 = j := by omega
    rw [List.getElem?_eraseIdx_of_ge _ _ _ h1, h2]

/-- Witness for C10 at a concrete file and index with rows on both sides. -/
theorem remove_frame_witness :
    1 < (load_expenses fileThree).rows.length ∧
    ∃ f', remove_expense 1 fileThree = Except.ok f' ∧
      (∀ j, j < 1 →
        (load_expenses f').rows[j]? = (load_expenses fileThree).rows[j]?) ∧
      (∀ j, 1 < j → j < (load_expenses fileThree).rows.length →
        (load_expenses f').rows[j - 1]? = (load_expenses fileThree).rows[j]?) :=
  ⟨by decide, remove_frame fileThree 1 (by decide)⟩

/-- C7 as stated is false: at the concrete out-of-range index 5 on a
two-row table, `remove_expense` does not complete silently — the underlying
`DataFrame.drop` raises `KeyError` (`Except.error`). -/
theorem remove_out_of_range_counterexample :
    remove_expense 5 fileTwo = Except.error () := by rfl

/-- C7 (amended): for every index out of range of the freshly loaded table,
`remove_expense` raises (`KeyError` from `DataFrame.drop`); nothing is
written, so the persisted table is unchanged. -/
theorem remove_out_of_range_raises (f : FileState) (i : ℕ)
    (h : (load_expenses f).rows.length ≤ i) :
    remove_expense i f = Except.error () := by
  unfold remove_expense df_drop
  rw [if_neg (not_lt.mpr h)]

/-- Witness for the amended C7 at a concrete out-of-range index. -/
theorem remove_out_of_range_raises_witness :
    (load_expenses (none : FileState)).rows.length ≤ 7 ∧
    remove_expense 7 none = Except.error () :=
  ⟨by decide, remove_out_of_range_raises none 7 (by decide)⟩

/-- C6 as stated is false: the filter string is used as a regular
expression, not a literal substring. At filter `"."` and the one-row table
with description `"ab"`, the code keeps the row (the wildcard `.` matches),
while substring filtering would drop it (`"ab"` does not contain `"."`). -/
theorem description_filter_substring_counterexample :
    descriptionStage "." [⟨some "ab", some 4, some 1⟩]
      ≠ List.filter (fun r => specDescMatch r.description ".")
          [⟨some "ab", some 4, some 1⟩] := by decide

/-- C6 (amended): an empty filter disables description filtering; a
non-empty filter is applied as a case-insensitive regular expression
(`re.search`), which for filter strings made of ordinary characters (no
regex metacharacters) keeps exactly the rows whose description contains the
filter as a case-insensitive substring; rows with a missing description
never match and never raise (`na=False`). -/
theorem description_filter_spec (rows : List Expense) (df : String) :
    (df = "" → descriptionStage df rows = rows) ∧
    (df ≠ "" → (∀ c ∈ df.data, ordinaryChar c = true) →
      descriptionStage df rows
        = rows.filter fun r => specDescMatch r.description df) ∧
    (df ≠ "" → ∀ r ∈ descriptionStage df rows, r.description ≠ none) := by
  refine ⟨?_, ?_, ?_⟩
  · intro h
    simp [descriptionStage, h]
  · intro h hord
    unfold descriptionStage
    rw [if_neg h]
    apply List.filter_congr
    intro r _
    unfold strContainsNaFalse specDescMatch
    cases r.description with
    | none => rfl
    | some s => exact pyContains_ordinary df s hord
  · intro h r hr
    unfold descriptionStage at hr
    rw [if_neg h] at hr
    have hp := List.of_mem_filter hr
    intro hnone
    rw [hnone] at hp
    simp [strContainsNaFalse] at hp

/-- Witness for the amended C6: the spec's example filter `"rent"` keeps
exactly the `Rent` row, matching case-insensitive substring filtering. -/
theorem description_filter_spec_witness :
    ("rent" ≠ "" ∧ (∀ c ∈ ("rent" : String).data, ordinaryChar c = true)) ∧
    descriptionStage "rent" [rowCoffee, rowRent, rowBlank]
      = List.filter (fun r => specDescMatch r.description "rent")
          [rowCoffee, rowRent, rowBlank] :=
  ⟨⟨by decide, by decide⟩,
   (description_filter_spec [rowCoffee, rowRent, rowBlank] "rent").2.1
     (by decide) (by decide)⟩

/-- C8: filtering is idempotent — applying `filter_expenses` twice with the
same criteria equals applying it once. -/
theorem filter_expenses_idempotent (rows : List Expense) (df : String)
    (af : ℚ) (dr : List ℤ) :
    filter_expenses (filter_expenses rows df af dr) df af dr
      = filter_expenses rows df af dr := by
  simp [filter_expenses_eq_filter, List.filter_filter, Bool.and_self]

/-- C9: filtering is monotone and pure — the result is a sublist of the
input (hence every row of the result is a row of the input); the embedding
is a pure function of the input, as the source operates on
`expenses.copy()`. -/
theorem filter_expenses_monotone_pure (rows : List Expense) (df : String)
    (af : ℚ) (dr : List ℤ) :
    (filter_expenses rows df af dr).Sublist rows ∧
    ∀ r ∈ filter_expenses rows df af dr, r ∈ rows := by
  have hs : (filter_expenses rows df af dr).Sublist rows := by
    rw [filter_expenses_eq_filter]
    exact List.filter_sublist _
  exact ⟨hs, fun r hr => hs.subset hr⟩

/-- Witness for C9: the spec's amount-100 example, membership transported
to the input table. -/
theorem filter_expenses_monotone_pure_witness :
    rowCoffee ∈ filter_expenses [rowCoffee, rowRent] "" 100 [] ∧
    rowCoffee ∈ [rowCoffee, rowRent] :=
  ⟨by decide,
   (filter_expenses_monotone_pure [rowCoffee, rowRent] "" 100 []).2 rowCoffee
     (by decide)⟩
